import Mathlib

/-!
Verification of the bbs-hono message board against its specification.

The repository is a small Hono application with three near-identical
backends (`src/app.ts` for Node/Vercel, `src/cf-worker.ts` for Cloudflare
Workers, and a static-config variant).  Each validates a create payload
with the same zod schema

  PostInsert = z.object({
    author: z.string().trim().max(32).optional().or(z.literal('').transform(() => undefined)),
    content: z.string().trim().min(1).max(500),
  })

and forwards to a Supabase `posts` table
(`id bigserial, author text null, content text not null
check (char_length(content) between 1 and 500), created_at timestamptz
default now()`), listing with
`select * order by created_at desc limit 50`.

This file shallowly embeds the JSON values, the zod parse, the route
handlers and a pure model of the `posts` table, and proves or refutes the
frozen claims about them.  JavaScript string semantics are modelled
faithfully: `String.prototype.trim` strips the ECMAScript whitespace set,
and zod's `min`/`max` on strings count UTF-16 code units, while the
Postgres `char_length` check counts characters (code points).
-/

/-- JSON values as produced by `JSON.parse` / `c.req.json()`. -/
inductive Json where
  | null
  | bool (b : Bool)
  | num (n : Int)
  | str (s : String)
  | arr (xs : List Json)
  | obj (fields : List (String × Json))
deriving Repr

/-- JavaScript truthiness test on a parsed JSON value: `!json` is taken in
`app.ts` line 97.  Falsy JSON values are `null`, `false`, `0` and `""`;
objects and arrays are always truthy. -/
def jsFalsy : Json → Bool
  | .null => true
  | .bool b => !b
  | .num n => n == 0
  | .str s => s == ""
  | .arr _ => false
  | .obj _ => false

/-- Property lookup on a parsed JSON object.  `JSON.parse` keeps the last
occurrence of a duplicated key, so the last matching field wins. -/
def jlookup (fs : List (String × Json)) (k : String) : Option Json :=
  ((fs.filter (fun f => f.1 == k)).getLast?).map (fun f => f.2)

/-- The ECMAScript `WhiteSpace` / `LineTerminator` set used by
`String.prototype.trim` (and hence by zod's `.trim()`). -/
def jsWhitespace (c : Char) : Bool :=
  c.toNat == 0x09 || c.toNat == 0x0A || c.toNat == 0x0B || c.toNat == 0x0C ||
  c.toNat == 0x0D || c.toNat == 0x20 || c.toNat == 0xA0 || c.toNat == 0x1680 ||
  (0x2000 ≤ c.toNat && c.toNat ≤ 0x200A) || c.toNat == 0x2028 ||
  c.toNat == 0x2029 || c.toNat == 0x202F || c.toNat == 0x205F ||
  c.toNat == 0x3000 || c.toNat == 0xFEFF

/-- `String.prototype.trim`: drop leading and trailing ECMAScript
whitespace. -/
def jsTrim (s : String) : String :=
  ⟨((s.data.dropWhile jsWhitespace).reverse.dropWhile jsWhitespace).reverse⟩

/-- UTF-16 length of one character (JavaScript `String.length` counts
UTF-16 code units; astral code points take a surrogate pair). -/
def charUtf16 (c : Char) : Nat :=
  if c.toNat < 0x10000 then 1 else 2

/-- JavaScript `String.length` of a string: total UTF-16 code units.
zod's `.min` / `.max` string checks compare against this length. -/
def utf16Len (s : String) : Nat :=
  (s.data.map charUtf16).sum

/-- Result of a successful `PostInsert.safeParse`: `author` is
`string | undefined` (`none` = absent), `content` is the trimmed string. -/
structure Parsed where
  author : Option String
  content : String
deriving Repr, DecidableEq

/-- First branch of the author union:
`z.string().trim().max(32).optional()`.  `none` (the field is absent /
`undefined`) is accepted; a string is trimmed and its UTF-16 length
checked against 32; any other JSON value fails. -/
def parseAuthorOpt : Option Json → Except Unit (Option String)
  | none => .ok none
  | some (.str s) =>
      if utf16Len (jsTrim s) ≤ 32 then .ok (some (jsTrim s)) else .error ()
  | some _ => .error ()

/-- The full author schema
`z.string().trim().max(32).optional().or(z.literal('').transform(() => undefined))`:
a zod union tries its options in order and returns the first success, so
the literal-`''` branch only runs when the first branch failed. -/
def parseAuthor (v : Option Json) : Except Unit (Option String) :=
  match parseAuthorOpt v with
  | .ok r => .ok r
  | .error _ =>
      match v with
      | some (.str s) => if s = "" then .ok none else .error ()
      | _ => .error ()

/-- The content schema `z.string().trim().min(1).max(500)`: required
string, trimmed, UTF-16 length between 1 and 500. -/
def parseContent : Option Json → Except Unit String
  | some (.str s) =>
      if 1 ≤ utf16Len (jsTrim s) && utf16Len (jsTrim s) ≤ 500 then .ok (jsTrim s)
      else .error ()
  | _ => .error ()

/-- `PostInsert.safeParse`: the input must be an object; both fields must
parse (zod reports failure if any field fails). -/
def postInsertParse : Json → Except Unit Parsed
  | .obj fs =>
      match parseAuthor (jlookup fs "author"), parseContent (jlookup fs "content") with
      | .ok a, .ok c => .ok ⟨a, c⟩
      | .error _, _ => .error ()
      | _, .error _ => .error ()
  | _ => .error ()

/-- A row of the `posts` table.  `author = none` models SQL `NULL`;
`created_at` is an abstract timestamp ordered like `timestamptz`. -/
structure Post where
  id : Nat
  author : Option String
  content : String
  created_at : Nat
deriving Repr, DecidableEq

/-- Pure model of the Supabase `posts` table: the rows in insertion
order, the next `bigserial` value, and the clock used for
`created_at default now()` (strictly increasing across inserts). -/
structure Store where
  posts : List Post
  nextId : Nat
  now : Nat
deriving Repr, DecidableEq

/-- The freshly migrated table: no rows, `bigserial` starts at 1. -/
def emptyStore : Store := ⟨[], 1, 0⟩

/-- `insert into posts (author, content) values (...)  returning *`.
The database enforces `check (char_length(content) between 1 and 500)`,
where `char_length` counts characters (code points); a violating insert
fails with an error message and leaves the table unchanged. -/
def dbInsert (st : Store) (author : Option String) (content : String) :
    Except String (Post × Store) :=
  if 1 ≤ content.length ∧ content.length ≤ 500 then
    .ok (⟨st.nextId, author, content, st.now⟩,
         ⟨st.posts ++ [⟨st.nextId, author, content, st.now⟩], st.nextId + 1, st.now + 1⟩)
  else
    .error "new row for relation posts violates check constraint posts_content_check"

/-- Insert into a list kept in descending `created_at` order. -/
def insertDesc (p : Post) : List Post → List Post
  | [] => [p]
  | q :: qs => if q.created_at ≤ p.created_at then p :: q :: qs else q :: insertDesc p qs

/-- Sort rows by `created_at` descending (`order('created_at',
{ ascending: false })`). -/
def sortDesc : List Post → List Post
  | [] => []
  | p :: ps => insertDesc p (sortDesc ps)

/-- `select * from posts order by created_at desc limit 50`, as issued by
the list handlers. -/
def dbSelect (st : Store) : Except String (List Post) :=
  .ok ((sortDesc st.posts).take 50)

/-- Outcome of the create route, tagged with the body that is returned:
`invalidJson` is `400 {error:'Invalid JSON'}`, `validationFailed` is
`400 {error:'Validation failed', details}`, `forbidden` is
`403 {error:'Service role not configured'}`, `storeError msg` is
`500 {error: msg}`, `created p` is `201 {post: p}`. -/
inductive CreateResult where
  | invalidJson
  | validationFailed
  | forbidden
  | storeError (msg : String)
  | created (p : Post)
deriving Repr, DecidableEq

/-- HTTP status code attached to each create outcome. -/
def CreateResult.status : CreateResult → Nat
  | .invalidJson => 400
  | .validationFailed => 400
  | .forbidden => 403
  | .storeError _ => 500
  | .created _ => 201

/-- Outcome of the list route: `ok posts` is `200 {posts}`,
`storeError msg` is `500 {error: msg}`. -/
inductive ListResult where
  | ok (posts : List Post)
  | storeError (msg : String)
deriving Repr, DecidableEq

/-- HTTP status code attached to each list outcome. -/
def ListResult.status : ListResult → Nat
  | .ok _ => 200
  | .storeError _ => 500

/-- A request body as seen by the handler: either not parseable as JSON
(`c.req.json()` throws) or a parsed JSON value. -/
inductive Body where
  | malformed
  | json (j : Json)
deriving Repr

/-- `await c.req.json().catch(() => null)` (app.ts line 96): a parse
failure is converted to `null`. -/
def reqJsonOrNull : Body → Json
  | .malformed => .null
  | .json j => j

/-- The Node/Vercel create handler `app.post('/posts')` of `src/app.ts`,
parameterised by the storage insert so that storage failures can be
injected.  The body is read with `.catch(() => null)` and rejected by the
truthiness test `if (!json)`; then `PostInsert.safeParse`; then one insert
with `author ?? null`; a storage error is returned as 500 with the
underlying message, otherwise 201 with the returned row. -/
def createHandlerWith
    (ins : Store → Option String → String → Except String (Post × Store))
    (body : Body) (st : Store) : CreateResult × Store :=
  let j := reqJsonOrNull body
  if jsFalsy j then (.invalidJson, st)
  else
    match postInsertParse j with
    | .error _ => (.validationFailed, st)
    | .ok pd =>
        match ins st pd.author pd.content with
        | .error msg => (.storeError msg, st)
        | .ok (p, st') => (.created p, st')

/-- The Node/Vercel create handler with the real table insert. -/
def createHandler : Body → Store → CreateResult × Store :=
  createHandlerWith dbInsert

/-- The Cloudflare-worker / static-config create handler
(`src/cf-worker.ts` `app.post('/api/posts')`): identical except the body
is read inside `try/catch`, so a parse failure returns 400 directly and
no truthiness test is applied to the parsed value. -/
def cfCreateHandlerWith
    (ins : Store → Option String → String → Except String (Post × Store))
    (body : Body) (st : Store) : CreateResult × Store :=
  match body with
  | .malformed => (.invalidJson, st)
  | .json j =>
      match postInsertParse j with
      | .error _ => (.validationFailed, st)
      | .ok pd =>
          match ins st pd.author pd.content with
          | .error msg => (.storeError msg, st)
          | .ok (p, st') => (.created p, st')

/-- The Cloudflare-worker create handler with the real table insert. -/
def cfCreateHandler : Body → Store → CreateResult × Store :=
  cfCreateHandlerWith dbInsert

/-- The list handler (`app.get('/posts')` and `app.get('/api/posts')`),
parameterised by the storage query: an error is returned as 500 with the
underlying message, otherwise 200 with the rows. -/
def listHandlerWith (q : Store → Except String (List Post)) (st : Store) :
    ListResult :=
  match q st with
  | .error msg => .storeError msg
  | .ok posts => .ok posts

/-- The list handler with the real limited, ordered select. -/
def listHandler : Store → ListResult :=
  listHandlerWith dbSelect

/-- The admin create handler `app.post('/posts/admin')` of `src/app.ts`:
body inside `try/catch` (400 on parse failure), then validation (400),
then the guard `if (!hasService) return 403` where `hasService` is whether
`SUPABASE_SERVICE_ROLE_KEY` is configured, then the service-role insert. -/
def adminCreateHandlerWith
    (ins : Store → Option String → String → Except String (Post × Store))
    (hasServiceKey : Bool) (body : Body) (st : Store) : CreateResult × Store :=
  match body with
  | .malformed => (.invalidJson, st)
  | .json j =>
      match postInsertParse j with
      | .error _ => (.validationFailed, st)
      | .ok pd =>
          if !hasServiceKey then (.forbidden, st)
          else
            match ins st pd.author pd.content with
            | .error msg => (.storeError msg, st)
            | .ok (p, st') => (.created p, st')

/-- The admin create handler with the real table insert. -/
def adminCreateHandler : Bool → Body → Store → CreateResult × Store :=
  adminCreateHandlerWith dbInsert

/-- Run a sequence of create requests against the Node handler,
threading the store. -/
def runCreates (bodies : List Body) (st : Store) : Store :=
  bodies.foldl (fun s b => (createHandler b s).2) st

/-- A create body that the handler accepts: parsed JSON, truthy, passing
validation.  (Validation also guarantees the database check constraint,
proved below, so such a request always succeeds.) -/
def ValidCreate (b : Body) : Prop :=
  ∃ j pd, b = Body.json j ∧ jsFalsy j = false ∧ postInsertParse j = .ok pd

/-- Store sanity: rows carry strictly increasing `created_at` in insertion
order, all below the current clock. -/
def StoreInv (st : Store) : Prop :=
  st.posts.Pairwise (fun p q => p.created_at < q.created_at) ∧
    ∀ p ∈ st.posts, p.created_at < st.now

/-! ### Supporting lemmas -/

theorem one_le_charUtf16 (c : Char) : 1 ≤ charUtf16 c := by
  unfold charUtf16
  split <;> simp

theorem length_le_utf16Len (s : String) : s.length ≤ utf16Len s := by
  cases s with
  | mk l =>
    show l.length ≤ utf16Len ⟨l⟩
    unfold utf16Len
    induction l with
    | nil => simp
    | cons c cs ih =>
      have hc := one_le_charUtf16 c
      simp only [List.map_cons, List.sum_cons, List.length_cons]
      simp only [String.data] at ih
      omega

theorem length_pos_of_utf16Len_pos (s : String) (h : 1 ≤ utf16Len s) :
    1 ≤ s.length := by
  cases s with
  | mk l =>
    cases l with
    | nil => simp [utf16Len] at h
    | cons c cs => simp [String.length]

/-- A content string accepted by the zod validator satisfies the database
check constraint: its code-point length is also in `[1, 500]`. -/
theorem parseContent_ok_length (v : Option Json) (c : String)
    (h : parseContent v = .ok c) : 1 ≤ c.length ∧ c.length ≤ 500 := by
  match v, h with
  | some (.str s), h =>
    simp only [parseContent] at h
    split at h
    · rename_i hcond
      rw [Bool.and_eq_true, decide_eq_true_eq, decide_eq_true_eq] at hcond
      injection h with h
      subst h
      exact ⟨length_pos_of_utf16Len_pos _ hcond.1,
        le_trans (length_le_utf16Len _) hcond.2⟩
    · exact absurd h (by simp)

theorem parseContent_ok_of_bounds (s : String)
    (h1 : 1 ≤ utf16Len (jsTrim s)) (h2 : utf16Len (jsTrim s) ≤ 500) :
    parseContent (some (.str s)) = .ok (jsTrim s) := by
  simp only [parseContent]
  rw [if_pos (by simp [h1, h2])]

theorem parseContent_error_of_bounds (s : String)
    (h : ¬(1 ≤ utf16Len (jsTrim s) ∧ utf16Len (jsTrim s) ≤ 500)) :
    parseContent (some (.str s)) = .error () := by
  simp only [parseContent]
  rw [if_neg]
  simp only [Bool.and_eq_true, decide_eq_true_eq]
  exact h

theorem parseAuthor_ok_of_le (s : String) (h : utf16Len (jsTrim s) ≤ 32) :
    parseAuthor (some (.str s)) = .ok (some (jsTrim s)) := by
  simp only [parseAuthor, parseAuthorOpt]
  rw [if_pos h]

theorem jsTrim_empty : jsTrim "" = "" := rfl

theorem parseAuthor_error_of_gt (s : String) (h : 32 < utf16Len (jsTrim s)) :
    parseAuthor (some (.str s)) = .error () := by
  have hne : ¬(s = "") := by
    intro he
    subst he
    simp [jsTrim_empty, utf16Len] at h
  simp only [parseAuthor, parseAuthorOpt]
  rw [if_neg (by omega), if_neg hne]

theorem postInsertParse_ok_length (j : Json) (pd : Parsed)
    (h : postInsertParse j = .ok pd) :
    1 ≤ pd.content.length ∧ pd.content.length ≤ 500 := by
  match j, h with
  | .obj fs, h =>
    revert h
    cases ha : parseAuthor (jlookup fs "author") with
    | error e => simp [postInsertParse, ha]
    | ok a =>
      cases hc : parseContent (jlookup fs "content") with
      | error e => simp [postInsertParse, ha, hc]
      | ok c =>
        intro h
        simp only [postInsertParse, ha, hc] at h
        injection h with h
        subst h
        exact parseContent_ok_length _ _ hc

theorem postInsertParse_error_of_content (fs : List (String × Json))
    (h : parseContent (jlookup fs "content") = .error ()) :
    postInsertParse (.obj fs) = .error () := by
  cases ha : parseAuthor (jlookup fs "author") with
  | error e => simp [postInsertParse, ha]
  | ok a => simp [postInsertParse, ha, h]

theorem postInsertParse_two_fields (a c : String)
    (hA : parseAuthor (some (.str a)) = .ok (some (jsTrim a)))
    (hC : parseContent (some (.str c)) = .ok (jsTrim c)) :
    postInsertParse (Json.obj [("author", Json.str a), ("content", Json.str c)]) =
      .ok ⟨some (jsTrim a), jsTrim c⟩ := by
  have h1 : jlookup [("author", Json.str a), ("content", Json.str c)] "author" =
      some (Json.str a) := rfl
  have h2 : jlookup [("author", Json.str a), ("content", Json.str c)] "content" =
      some (Json.str c) := rfl
  simp only [postInsertParse, h1, h2, hA, hC]

theorem dbInsert_ok (st : Store) (a : Option String) (c : String)
    (h1 : 1 ≤ c.length) (h2 : c.length ≤ 500) :
    dbInsert st a c =
      .ok (⟨st.nextId, a, c, st.now⟩,
           ⟨st.posts ++ [⟨st.nextId, a, c, st.now⟩], st.nextId + 1, st.now + 1⟩) := by
  unfold dbInsert
  rw [if_pos ⟨h1, h2⟩]

/-- A truthy body that passes validation is inserted: the handler returns
201 with the new row and the table grows by exactly that row. -/
theorem createHandler_ok (j : Json) (pd : Parsed) (st : Store)
    (hf : jsFalsy j = false) (hp : postInsertParse j = .ok pd) :
    createHandler (.json j) st =
      (.created ⟨st.nextId, pd.author, pd.content, st.now⟩,
       ⟨st.posts ++ [⟨st.nextId, pd.author, pd.content, st.now⟩],
        st.nextId + 1, st.now + 1⟩) := by
  obtain ⟨h1, h2⟩ := postInsertParse_ok_length j pd hp
  unfold createHandler createHandlerWith
  simp only [reqJsonOrNull, hf, Bool.false_eq_true, if_false, hp,
    dbInsert_ok st pd.author pd.content h1 h2]

theorem createHandler_validationFailed (j : Json) (st : Store)
    (hf : jsFalsy j = false) (hp : postInsertParse j = .error ()) :
    createHandler (.json j) st = (.validationFailed, st) := by
  unfold createHandler createHandlerWith
  simp only [reqJsonOrNull, hf, Bool.false_eq_true, if_false, hp]

/-- The create handler either leaves the table unchanged, or the body
passed validation and exactly the parsed row was appended. -/
theorem createHandler_store_cases (body : Body) (st : Store) :
    (createHandler body st).2 = st ∨
    ∃ j pd, body = .json j ∧ postInsertParse j = .ok pd ∧
      (createHandler body st).2 =
        ⟨st.posts ++ [⟨st.nextId, pd.author, pd.content, st.now⟩],
         st.nextId + 1, st.now + 1⟩ := by
  cases body with
  | malformed => exact Or.inl rfl
  | json j =>
    by_cases hf : jsFalsy j = true
    · left
      unfold createHandler createHandlerWith
      simp only [reqJsonOrNull, hf, if_true]
    · rw [Bool.not_eq_true] at hf
      cases hp : postInsertParse j with
      | error e =>
        left
        rw [createHandler_validationFailed j st hf hp]
      | ok pd =>
        right
        refine ⟨j, pd, rfl, hp, ?_⟩
        rw [createHandler_ok j pd st hf hp]

theorem insertDesc_append (p : Post) (l : List Post)
    (h : ∀ q ∈ l, p.created_at < q.created_at) :
    insertDesc p l = l ++ [p] := by
  induction l with
  | nil => rfl
  | cons q qs ih =>
    have hq := h q (List.mem_cons_self q qs)
    rw [insertDesc, if_neg (by omega), ih (fun r hr => h r (List.mem_cons_of_mem q hr))]
    simp

/-- Sorting descending a list whose `created_at` strictly ascends gives
its reverse. -/
theorem sortDesc_of_ascending (l : List Post)
    (h : l.Pairwise fun p q => p.created_at < q.created_at) :
    sortDesc l = l.reverse := by
  induction l with
  | nil => rfl
  | cons p ps ih =>
    rw [List.pairwise_cons] at h
    rw [sortDesc, ih h.2,
      insertDesc_append p ps.reverse (fun q hq => h.1 q (List.mem_reverse.mp hq))]
    simp

/-- One accepted create appends one row, keeps the store invariant, and
advances the clock. -/
theorem createHandler_preserves_inv (b : Body) (st : Store)
    (hb : ValidCreate b) (hst : StoreInv st) :
    StoreInv (createHandler b st).2 ∧
      (createHandler b st).2.posts.length = st.posts.length + 1 := by
  obtain ⟨j, pd, hbj, hf, hp⟩ := hb
  subst hbj
  rw [createHandler_ok j pd st hf hp]
  obtain ⟨hpw, hlt⟩ := hst
  refine ⟨⟨?_, ?_⟩, by simp⟩
  · rw [List.pairwise_append]
    refine ⟨hpw, List.pairwise_singleton _ _, ?_⟩
    intro q hq r hr
    rw [List.mem_singleton] at hr
    subst hr
    exact hlt q hq
  · intro q hq
    rw [List.mem_append] at hq
    rcases hq with hq | hq
    · exact Nat.lt_succ_of_lt (hlt q hq)
    · rw [List.mem_singleton] at hq
      subst hq
      exact Nat.lt_succ_self _

theorem runCreates_inv (bodies : List Body) :
    ∀ st : Store, (∀ b ∈ bodies, ValidCreate b) → StoreInv st →
      StoreInv (runCreates bodies st) ∧
        (runCreates bodies st).posts.length = st.posts.length + bodies.length := by
  induction bodies with
  | nil =>
    intro st _ hst
    exact ⟨hst, by simp [runCreates]⟩
  | cons b bs ih =>
    intro st hv hst
    have hvb := hv b (List.mem_cons_self b bs)
    have hstep := createHandler_preserves_inv b st hvb hst
    have hrun : runCreates (b :: bs) st = runCreates bs (createHandler b st).2 := by
      simp [runCreates]
    rw [hrun]
    have := ih (createHandler b st).2 (fun x hx => hv x (List.mem_cons_of_mem b hx)) hstep.1
    refine ⟨this.1, ?_⟩
    rw [this.2, hstep.2]
    simp [List.length_cons]
    omega

/-! ### Claims -/

/-- C1: the claim says a create payload whose author is an empty or
whitespace-only string is stored (and echoed) with `author = null`, never
the empty string.  The code does the opposite: the first union branch
`z.string().trim().max(32).optional()` already accepts `''` (trimmed
length 0 is at most 32), so the `z.literal('').transform(() => undefined)`
branch is unreachable and `author ?? null` sees the empty string, not
`undefined`.  Evaluating the Node create handler at
`{"author":"","content":"hello"}` and at `{"author":"   ","content":"hello"}`
inserts and returns a row with `author = ""`, which is not null. -/
theorem claim_C1_empty_author_stored_as_empty_string :
    createHandler
        (.json (.obj [("author", Json.str ""), ("content", Json.str "hello")]))
        emptyStore =
      (CreateResult.created ⟨1, some "", "hello", 0⟩,
       ⟨[⟨1, some "", "hello", 0⟩], 2, 1⟩) ∧
    createHandler
        (.json (.obj [("author", Json.str "   "), ("content", Json.str "hello")]))
        emptyStore =
      (CreateResult.created ⟨1, some "", "hello", 0⟩,
       ⟨[⟨1, some "", "hello", 0⟩], 2, 1⟩) ∧
    (some "" : Option String) ≠ none :=
  ⟨rfl, rfl, by decide⟩

/-- C2: for every create payload whose content has trimmed length in
`[1,500]` and whose author has trimmed length in `[0,32]` (lengths in
UTF-16 code units, as zod measures them), the create operation succeeds
with status 201 and returns the newly created Post echoing the trimmed
content and trimmed author, with the server-assigned `id` and
`created_at`. -/
theorem claim_C2_valid_create_succeeds (a c : String) (st : Store)
    (hc1 : 1 ≤ utf16Len (jsTrim c)) (hc2 : utf16Len (jsTrim c) ≤ 500)
    (ha : utf16Len (jsTrim a) ≤ 32) :
    ∃ p st',
      createHandler
          (.json (.obj [("author", Json.str a), ("content", Json.str c)])) st =
        (.created p, st') ∧
      (CreateResult.created p).status = 201 ∧
      p.content = jsTrim c ∧ p.author = some (jsTrim a) ∧
      p.id = st.nextId ∧ p.created_at = st.now := by
  have hp := postInsertParse_two_fields a c (parseAuthor_ok_of_le a ha)
    (parseContent_ok_of_bounds c hc1 hc2)
  exact ⟨_, _, createHandler_ok _ ⟨some (jsTrim a), jsTrim c⟩ st rfl hp,
    rfl, rfl, rfl, rfl, rfl⟩

theorem claim_C2_witness :
    (1 ≤ utf16Len (jsTrim "Hello") ∧ utf16Len (jsTrim "Hello") ≤ 500 ∧
      utf16Len (jsTrim "Alice") ≤ 32) ∧
    ∃ p st',
      createHandler
          (.json (.obj [("author", Json.str "Alice"), ("content", Json.str "Hello")]))
          emptyStore =
        (.created p, st') ∧
      (CreateResult.created p).status = 201 ∧
      p.content = jsTrim "Hello" ∧ p.author = some (jsTrim "Alice") ∧
      p.id = emptyStore.nextId ∧ p.created_at = emptyStore.now :=
  ⟨⟨by decide, by decide, by decide⟩,
   claim_C2_valid_create_succeeds "Alice" "Hello" emptyStore
     (by decide) (by decide) (by decide)⟩

/-- C3: content validation trims and rejects exactly when the trimmed
length (in UTF-16 code units) is 0 or greater than 500: any payload whose
content field is a string with out-of-bounds trimmed length (in
particular `""`, whitespace-only, or trimmed length 501) is rejected with
a 400 validation error whatever its other fields hold, and content of
trimmed length in `[1,500]` passes content validation. -/
theorem claim_C3_content_bounds (fs : List (String × Json)) (s : String) (st : Store)
    (hc : jlookup fs "content" = some (Json.str s)) :
    (¬(1 ≤ utf16Len (jsTrim s) ∧ utf16Len (jsTrim s) ≤ 500) →
        createHandler (.json (.obj fs)) st = (.validationFailed, st) ∧
        CreateResult.validationFailed.status = 400) ∧
    ((1 ≤ utf16Len (jsTrim s) ∧ utf16Len (jsTrim s) ≤ 500) →
        parseContent (jlookup fs "content") = .ok (jsTrim s)) := by
  constructor
  · intro hbad
    have herr : parseContent (jlookup fs "content") = .error () := by
      rw [hc]
      exact parseContent_error_of_bounds s hbad
    exact ⟨createHandler_validationFailed _ st rfl
      (postInsertParse_error_of_content fs herr), rfl⟩
  · intro hgood
    rw [hc]
    exact parseContent_ok_of_bounds s hgood.1 hgood.2

theorem claim_C3_witness :
    jlookup [("content", Json.str "  ")] "content" = some (Json.str "  ") ∧
    (createHandler (.json (.obj [("content", Json.str "  ")])) emptyStore =
        (.validationFailed, emptyStore) ∧
      CreateResult.validationFailed.status = 400) :=
  ⟨rfl,
   (claim_C3_content_bounds [("content", Json.str "  ")] "  " emptyStore rfl).1
     (by decide)⟩

/-- C4: the author bound is exactly 32 UTF-16 code units after trimming:
with valid content, a payload whose author has trimmed length 33 is
rejected with a 400 validation error (the literal-`''` union branch
cannot save it, since such an author is not the empty string), and one
whose author has trimmed length 32 is accepted and created. -/
theorem claim_C4_author_bound_32 (a c : String) (st : Store)
    (hc1 : 1 ≤ utf16Len (jsTrim c)) (hc2 : utf16Len (jsTrim c) ≤ 500) :
    (utf16Len (jsTrim a) = 33 →
        createHandler
            (.json (.obj [("author", Json.str a), ("content", Json.str c)])) st =
          (.validationFailed, st) ∧
        CreateResult.validationFailed.status = 400) ∧
    (utf16Len (jsTrim a) = 32 →
        ∃ p st',
          createHandler
              (.json (.obj [("author", Json.str a), ("content", Json.str c)])) st =
            (.created p, st') ∧
          p.author = some (jsTrim a) ∧ (CreateResult.created p).status = 201) := by
  constructor
  · intro h33
    have hA : parseAuthor (some (.str a)) = .error () :=
      parseAuthor_error_of_gt a (by omega)
    have hP : postInsertParse
        (.obj [("author", Json.str a), ("content", Json.str c)]) = .error () := by
      have h1 : jlookup [("author", Json.str a), ("content", Json.str c)] "author" =
          some (Json.str a) := rfl
      simp only [postInsertParse, h1, hA]
    exact ⟨createHandler_validationFailed _ st rfl hP, rfl⟩
  · intro h32
    have hp := postInsertParse_two_fields a c (parseAuthor_ok_of_le a (by omega))
      (parseContent_ok_of_bounds c hc1 hc2)
    exact ⟨_, _, createHandler_ok _ ⟨some (jsTrim a), jsTrim c⟩ st rfl hp, rfl, rfl⟩

theorem claim_C4_witness :
    (1 ≤ utf16Len (jsTrim "hi") ∧ utf16Len (jsTrim "hi") ≤ 500) ∧
    (createHandler
        (.json (.obj [("author", Json.str (String.mk (List.replicate 33 'a'))),
                      ("content", Json.str "hi")])) emptyStore =
      (.validationFailed, emptyStore)) ∧
    (∃ p st',
      createHandler
          (.json (.obj [("author", Json.str (String.mk (List.replicate 32 'a'))),
                        ("content", Json.str "hi")])) emptyStore =
        (.created p, st') ∧
      p.author = some (jsTrim (String.mk (List.replicate 32 'a'))) ∧
      (CreateResult.created p).status = 201) := by
  refine ⟨⟨by decide, by decide⟩, ?_, ?_⟩
  · exact ((claim_C4_author_bound_32 (String.mk (List.replicate 33 'a')) "hi"
      emptyStore (by decide) (by decide)).1 (by decide)).1
  · exact (claim_C4_author_bound_32 (String.mk (List.replicate 32 'a')) "hi"
      emptyStore (by decide) (by decide)).2 (by decide)

/-- C5: a create request whose body is not parseable as JSON is rejected
with a 400 client error, in both the Node/Vercel handler (which converts
the parse failure to `null` and fails the truthiness test) and the
Cloudflare-worker handler (which catches the exception); the store is
untouched, validation is never reached, and the status is 400, not
500. -/
theorem claim_C5_malformed_rejected (st : Store) :
    createHandler Body.malformed st = (.invalidJson, st) ∧
    cfCreateHandler Body.malformed st = (.invalidJson, st) ∧
    CreateResult.invalidJson.status = 400 ∧
    CreateResult.invalidJson.status ≠ 500 :=
  ⟨rfl, rfl, rfl, by decide⟩

/-- C6: the list operation takes no input and fetches at most 50 posts
ordered by `created_at` descending: on the empty store it returns the
empty sequence, and after N accepted creates starting from the empty
store it returns exactly `min N 50` posts sorted by creation time
descending. -/
theorem claim_C6_list_min_n_50_desc (bodies : List Body)
    (hv : ∀ b ∈ bodies, ValidCreate b) :
    listHandler emptyStore = ListResult.ok [] ∧
    ∃ ps, listHandler (runCreates bodies emptyStore) = ListResult.ok ps ∧
      ps.length = min bodies.length 50 ∧
      ps.Pairwise (fun p q => q.created_at ≤ p.created_at) := by
  have hinv0 : StoreInv emptyStore := ⟨List.Pairwise.nil, by simp [emptyStore]⟩
  obtain ⟨⟨hpw, _⟩, hlen⟩ := runCreates_inv bodies emptyStore hv hinv0
  refine ⟨rfl, (sortDesc (runCreates bodies emptyStore).posts).take 50, rfl, ?_, ?_⟩
  · rw [sortDesc_of_ascending _ hpw, List.length_take, List.length_reverse, hlen]
    simp only [emptyStore, List.length_nil, Nat.zero_add]
    omega
  · rw [sortDesc_of_ascending _ hpw]
    have hrev : (runCreates bodies emptyStore).posts.reverse.Pairwise
        (fun p q => q.created_at < p.created_at) := by
      rw [List.pairwise_reverse]
      exact hpw
    exact (List.Pairwise.sublist (List.take_sublist 50 _) hrev).imp
      (fun h => le_of_lt h)

theorem claim_C6_witness :
    (∀ b ∈ [Body.json (.obj [("content", Json.str "hi")]),
            Body.json (.obj [("content", Json.str "yo")])], ValidCreate b) ∧
    listHandler emptyStore = ListResult.ok [] ∧
    ∃ ps,
      listHandler (runCreates
        [Body.json (.obj [("content", Json.str "hi")]),
         Body.json (.obj [("content", Json.str "yo")])] emptyStore) =
        ListResult.ok ps ∧
      ps.length = min 2 50 ∧
      ps.Pairwise (fun p q => q.created_at ≤ p.created_at) := by
  have hv : ∀ b ∈ [Body.json (.obj [("content", Json.str "hi")]),
      Body.json (.obj [("content", Json.str "yo")])], ValidCreate b := by
    intro b hb
    simp only [List.mem_cons, List.not_mem_nil, or_false] at hb
    rcases hb with hb | hb
    · exact hb ▸ ⟨_, ⟨none, "hi"⟩, rfl, rfl, rfl⟩
    · exact hb ▸ ⟨_, ⟨none, "yo"⟩, rfl, rfl, rfl⟩
  exact ⟨hv, claim_C6_list_min_n_50_desc _ hv⟩

/-- C7: for both routes every storage-layer error is surfaced to the
caller as a 500 server error carrying the underlying error message.  The
handlers are stated over an arbitrary injected storage operation; the
single storage outcome is mapped directly to the response (the store is
returned unchanged and no second call is made, i.e. no retry). -/
theorem claim_C7_storage_error_surfaced (msg : String) (st : Store)
    (j : Json) (pd : Parsed)
    (ins : Store → Option String → String → Except String (Post × Store))
    (q : Store → Except String (List Post))
    (hq : q st = .error msg)
    (hf : jsFalsy j = false) (hp : postInsertParse j = .ok pd)
    (hins : ins st pd.author pd.content = .error msg) :
    listHandlerWith q st = .storeError msg ∧
    (ListResult.storeError msg).status = 500 ∧
    createHandlerWith ins (.json j) st = (.storeError msg, st) ∧
    (CreateResult.storeError msg).status = 500 := by
  refine ⟨?_, rfl, ?_, rfl⟩
  · unfold listHandlerWith
    rw [hq]
  · unfold createHandlerWith
    simp only [reqJsonOrNull, hf, Bool.false_eq_true, if_false, hp, hins]

theorem claim_C7_witness :
    listHandlerWith (fun _ => .error "boom") emptyStore = .storeError "boom" ∧
    createHandlerWith (fun _ _ _ => .error "boom")
        (.json (.obj [("content", Json.str "hi")])) emptyStore =
      (.storeError "boom", emptyStore) :=
  ⟨(claim_C7_storage_error_surfaced "boom" emptyStore
      (.obj [("content", Json.str "hi")]) ⟨none, "hi"⟩
      (fun _ _ _ => .error "boom") (fun _ => .error "boom")
      rfl rfl rfl rfl).1,
   (claim_C7_storage_error_surfaced "boom" emptyStore
      (.obj [("content", Json.str "hi")]) ⟨none, "hi"⟩
      (fun _ _ _ => .error "boom") (fun _ => .error "boom")
      rfl rfl rfl rfl).2.2.1⟩

/-- C8: the write-time invariant: if every stored post has content length
in `[1,500]`, the same holds after any create request (the validator and
the modelled check constraint only let such rows through), and a body
that fails validation is rejected with a 400 response leaving the store
unchanged. -/
theorem claim_C8_content_invariant (body : Body) (st : Store)
    (hinv : ∀ p ∈ st.posts, 1 ≤ p.content.length ∧ p.content.length ≤ 500) :
    (∀ p ∈ (createHandler body st).2.posts,
        1 ≤ p.content.length ∧ p.content.length ≤ 500) ∧
    (∀ j, body = Body.json j → jsFalsy j = false → postInsertParse j = .error () →
        createHandler body st = (.validationFailed, st) ∧
        CreateResult.validationFailed.status = 400) := by
  constructor
  · rcases createHandler_store_cases body st with hcase | ⟨j, pd, _, hp, hcase⟩
    · rw [hcase]
      exact hinv
    · rw [hcase]
      intro p hmem
      simp only [List.mem_append, List.mem_singleton] at hmem
      rcases hmem with hmem | hmem
      · exact hinv p hmem
      · subst hmem
        exact postInsertParse_ok_length j pd hp
  · intro j hbj hf hp
    subst hbj
    exact ⟨createHandler_validationFailed j st hf hp, rfl⟩

theorem claim_C8_witness :
    (∀ p ∈ (createHandler (.json (.obj [("content", Json.str "hi")]))
        emptyStore).2.posts, 1 ≤ p.content.length ∧ p.content.length ≤ 500) ∧
    createHandler (.json (.num 5)) emptyStore = (.validationFailed, emptyStore) := by
  refine ⟨(claim_C8_content_invariant _ emptyStore (by simp [emptyStore])).1, ?_⟩
  exact ((claim_C8_content_invariant (.json (.num 5)) emptyStore
    (by simp [emptyStore])).2 (.num 5) rfl rfl rfl).1

/-- C9, counterexample: the claim says every request to `/posts/admin`
receives a 403 when `SUPABASE_SERVICE_ROLE_KEY` is absent.  The handler
parses and validates the body first, so a malformed body receives 400,
not 403, even with the key absent. -/
theorem claim_C9_counterexample :
    adminCreateHandler false Body.malformed emptyStore =
      (.invalidJson, emptyStore) ∧
    (adminCreateHandler false Body.malformed emptyStore).1.status = 400 ∧
    (adminCreateHandler false Body.malformed emptyStore).1.status ≠ 403 :=
  ⟨rfl, rfl, by decide⟩

/-- C9, amended: when `SUPABASE_SERVICE_ROLE_KEY` is absent, every
request to `/posts/admin` whose body parses as JSON and passes validation
receives a 403 forbidden response, and no request performs an insert (the
store is unchanged in every case; invalid bodies receive 400 instead). -/
theorem claim_C9_admin_forbidden_without_key (st : Store) (j : Json) (pd : Parsed)
    (hp : postInsertParse j = .ok pd) :
    adminCreateHandler false (.json j) st = (.forbidden, st) ∧
    CreateResult.forbidden.status = 403 ∧
    ∀ b : Body, (adminCreateHandler false b st).2 = st := by
  refine ⟨?_, rfl, ?_⟩
  · unfold adminCreateHandler adminCreateHandlerWith
    simp only [hp, Bool.not_false, if_true]
  · intro b
    cases b with
    | malformed => rfl
    | json j2 =>
      cases hp2 : postInsertParse j2 with
      | error e =>
        unfold adminCreateHandler adminCreateHandlerWith
        simp only [hp2]
      | ok pd2 =>
        unfold adminCreateHandler adminCreateHandlerWith
        simp only [hp2, Bool.not_false, if_true]

theorem claim_C9_witness :
    adminCreateHandler false (.json (.obj [("content", Json.str "hi")]))
        emptyStore = (.forbidden, emptyStore) ∧
    (adminCreateHandler false Body.malformed emptyStore).2 = emptyStore :=
  ⟨(claim_C9_admin_forbidden_without_key emptyStore
      (.obj [("content", Json.str "hi")]) ⟨none, "hi"⟩ rfl).1,
   (claim_C9_admin_forbidden_without_key emptyStore
      (.obj [("content", Json.str "hi")]) ⟨none, "hi"⟩ rfl).2.2 Body.malformed⟩

/-- C10: in the Node/Vercel create handler, a body that is syntactically
valid JSON but whose top-level value is falsy (`null`, `false`, `0` or
`""`) is rejected with the 400 "Invalid JSON" response (the
`invalidJson` outcome, not the validation-failure outcome), because the
parse result is tested for truthiness; the store is untouched and
field-level validation is never reached. -/
theorem claim_C10_falsy_body_rejected (st : Store) (j : Json)
    (h : jsFalsy j = true) :
    createHandler (.json j) st = (.invalidJson, st) ∧
    CreateResult.invalidJson.status = 400 ∧
    jsFalsy Json.null = true ∧ jsFalsy (Json.bool false) = true ∧
    jsFalsy (Json.num 0) = true ∧ jsFalsy (Json.str "") = true := by
  refine ⟨?_, rfl, rfl, rfl, rfl, rfl⟩
  unfold createHandler createHandlerWith
  simp only [reqJsonOrNull, h, if_true]

theorem claim_C10_witness :
    jsFalsy (Json.num 0) = true ∧
    createHandler (.json (Json.num 0)) emptyStore = (.invalidJson, emptyStore) :=
  ⟨rfl, (claim_C10_falsy_body_rejected emptyStore (Json.num 0) rfl).1⟩
